import Mathlib

/-!
Verification of the cloud-sql-proxy-runner core against its source.

The Go sources are shallowly embedded below:
* `ProxyEntry`, `DaemonState` mirror `internal/config.ProxyEntry` and
  `internal/proxy.DaemonState`;
* `proxiesEqual` mirrors `cmd/start.go proxiesEqual` (length check plus an
  index-by-index struct comparison);
* `checkDaemon` embeds the reconciliation logic inlined in
  `cmd/start.go runStartForeground` (read pid file, liveness probe, read
  state file, compare proxies);
* `startListeners`/`runDaemon` embed the daemon context of
  `cmd/start.go runDaemon` (pid write, config load, dialer creation, bind
  loop with rollback, state write);
* `runStop` embeds `cmd/stop.go runStop`;
* `ioCopy`/`handleConn`/`acceptLoop` embed
  `internal/proxy/proxy.go Listener.handleConn` and `Listener.acceptLoop`;
* `runList` embeds the status computation of `cmd/list.go runList`.

Filesystem reads, process liveness and socket outcomes are passed in as
explicit parameters (`Option` for fallible reads, `Bool`-valued oracles for
liveness and bind/dial success), so every embedded function is executable.
-/

set_option autoImplicit false

namespace CloudSqlProxyRunner

/-- Mirrors `config.ProxyEntry`: one configured remote instance, local port
and secret reference.  Field names follow the Go struct. -/
structure ProxyEntry where
  Instance : String
  Port : Int
  Secret : String
deriving DecidableEq, Repr

/-- Mirrors `proxy.DaemonState` (state.json): pid, start timestamp and the
configuration snapshot active when the daemon started.  The timestamp is
abstracted to a `Nat`; no embedded logic reads it. -/
structure DaemonState where
  PID : Int
  StartedAt : Nat
  Proxies : List ProxyEntry
deriving DecidableEq, Repr

/-- Mirrors `cmd/start.go proxiesEqual`: `false` when lengths differ,
otherwise an index-by-index comparison `a[i] != b[i]` of whole structs.
Note the comparison is positional, not multiset-based. -/
def proxiesEqual (a b : List ProxyEntry) : Bool :=
  if a.length ≠ b.length then false
  else (a.zip b).all fun p => decide (p.1 = p.2)

/-- The positional comparison of `proxiesEqual` succeeds exactly on
syntactically equal lists. -/
theorem proxiesEqual_eq_true_iff (a b : List ProxyEntry) :
    proxiesEqual a b = true ↔ a = b := by
  induction a generalizing b with
  | nil =>
    cases b with
    | nil => simp [proxiesEqual]
    | cons y ys => simp [proxiesEqual]
  | cons x xs ih =>
    cases b with
    | nil => simp [proxiesEqual]
    | cons y ys =>
      simp only [proxiesEqual, List.length_cons, ne_eq, Nat.succ_ne_succ,
        List.zip_cons_cons, List.all_cons, Bool.and_eq_true, decide_eq_true_eq]
      by_cases hlen : xs.length = ys.length
      · have := ih ys
        simp only [proxiesEqual, ne_eq, hlen] at this
        simp only [hlen, not_true_eq_false, if_false, Bool.and_eq_true,
          decide_eq_true_eq] at *
        constructor
        · rintro ⟨hxy, hall⟩
          have hxs : xs = ys := this.mp hall
          simp [hxy, hxs]
        · rintro h
          cases h
          exact ⟨rfl, this.mpr rfl⟩
      · simp only [hlen, not_false_eq_true, if_true]
        constructor
        · intro h
          exact absurd h (by simp)
        · intro h
          cases h
          exact absurd rfl hlen

/-- `proxiesEqual` returns `false` exactly on unequal lists. -/
theorem proxiesEqual_eq_false_iff (a b : List ProxyEntry) :
    proxiesEqual a b = false ↔ a ≠ b := by
  rw [← Bool.not_eq_true]
  exact not_congr (proxiesEqual_eq_true_iff a b)

/-- The three outcomes of the reconciliation decision in
`runStartForeground`: fresh start, keep the running daemon, or restart. -/
inductive DaemonAction where
  | start
  | keep
  | restart
deriving DecidableEq, Repr

/-- Embeds the reconciliation decision inlined in
`cmd/start.go runStartForeground` (and exercised by the `checkDaemon`
tests): read the pid file (`pidFile`, `none` when absent or unparsable),
probe liveness (`running`), read the state file (`stateFile`, `none` when
absent or unparsable), and compare `state.Proxies` against the desired
configuration with `proxiesEqual`.  Returns the action and the pid it
concerns (0 for a fresh start). -/
def checkDaemon (desired : List ProxyEntry) (pidFile : Option Int)
    (running : Int → Bool) (stateFile : Option DaemonState) :
    DaemonAction × Int :=
  match pidFile with
  | some pid =>
    if running pid then
      match stateFile with
      | some st =>
        if proxiesEqual st.Proxies desired then (.keep, pid)
        else (.restart, pid)
      | none => (.restart, pid)
    else (.start, 0)
  | none => (.start, 0)

/-- Concrete endpoint fixtures matching the ones in `cmd/start_test.go`. -/
def proxyA : ProxyEntry :=
  { Instance := "proj:us-central1:db-a", Port := 5432, Secret := "secret-a" }

def proxyB : ProxyEntry :=
  { Instance := "proj:us-central1:db-b", Port := 5433, Secret := "secret-b" }

def proxyC : ProxyEntry :=
  { Instance := "proj:us-central1:db-c", Port := 5434, Secret := "secret-c" }

/-- `desired` replaces exactly one endpoint of `snapshot` (same position)
by a different one; this covers changing any single field (identifier,
port or secret reference) of that endpoint. -/
def singleFieldChange (snapshot desired : List ProxyEntry) : Prop :=
  ∃ l1 old e l2, snapshot = l1 ++ old :: l2 ∧ desired = l1 ++ e :: l2 ∧ e ≠ old

/-- `desired` inserts one endpoint into `snapshot` at some position. -/
def endpointAdded (snapshot desired : List ProxyEntry) : Prop :=
  ∃ l1 e l2, snapshot = l1 ++ l2 ∧ desired = l1 ++ e :: l2

/-- `desired` removes one endpoint of `snapshot` at some position. -/
def endpointRemoved (snapshot desired : List ProxyEntry) : Prop :=
  ∃ l1 e l2, snapshot = l1 ++ e :: l2 ∧ desired = l1 ++ l2

theorem ne_of_singleFieldChange {snapshot desired : List ProxyEntry}
    (h : singleFieldChange snapshot desired) : snapshot ≠ desired := by
  obtain ⟨l1, old, e, l2, hs, hd, hne⟩ := h
  subst hs; subst hd
  intro heq
  have h2 := List.append_cancel_left heq
  exact hne (List.cons.injEq old l2 e l2 ▸ h2).left.symm

theorem ne_of_endpointAdded {snapshot desired : List ProxyEntry}
    (h : endpointAdded snapshot desired) : snapshot ≠ desired := by
  obtain ⟨l1, e, l2, hs, hd⟩ := h
  subst hs; subst hd
  intro heq
  have := congrArg List.length heq
  simp only [List.length_append, List.length_cons] at this
  omega

theorem ne_of_endpointRemoved {snapshot desired : List ProxyEntry}
    (h : endpointRemoved snapshot desired) : snapshot ≠ desired := by
  obtain ⟨l1, e, l2, hs, hd⟩ := h
  subst hs; subst hd
  intro heq
  have := congrArg List.length heq
  simp only [List.length_append, List.length_cons] at this
  omega

/-- C1: the claim says the reconciliation decision returns Keep for every
permutation of a configuration matching the live daemon's snapshot.  The
code's `proxiesEqual` is positional: on the failing input it returns
`false` for a genuine permutation, so `checkDaemon` takes the restart
path, contradicting the claim (and the repository's own
`TestProxiesEqual`/`TestCheckDaemon_RunningWithReorderedConfig`, which
expect order independence). -/
theorem checkDaemon_restart_on_reordered_config :
    List.Perm [proxyA, proxyB] [proxyB, proxyA] ∧
    proxiesEqual [proxyA, proxyB] [proxyB, proxyA] = false ∧
    checkDaemon [proxyB, proxyA] (some 42) (fun _ => true)
        (some { PID := 42, StartedAt := 0, Proxies := [proxyA, proxyB] }) =
      (DaemonAction.restart, 42) :=
  ⟨List.Perm.swap proxyB proxyA [], by decide, by decide⟩

/-- C5: whenever the pid file is absent or unparsable, or the recorded pid
is not live, the decision is Start with pid 0, whatever the desired
configuration and whatever the state file holds. -/
theorem checkDaemon_start_when_pid_dead (desired : List ProxyEntry)
    (pidFile : Option Int) (running : Int → Bool)
    (stateFile : Option DaemonState)
    (hdead : ∀ pid, pidFile = some pid → running pid = false) :
    checkDaemon desired pidFile running stateFile = (DaemonAction.start, 0) := by
  cases pidFile with
  | none => rfl
  | some pid => simp [checkDaemon, hdead pid rfl]

theorem checkDaemon_start_when_pid_dead_witness :
    checkDaemon [proxyA] (some 99) (fun _ => false)
        (some { PID := 99, StartedAt := 0, Proxies := [proxyB] }) =
      (DaemonAction.start, 0) :=
  checkDaemon_start_when_pid_dead [proxyA] (some 99) (fun _ => false)
    (some { PID := 99, StartedAt := 0, Proxies := [proxyB] })
    (fun pid h => by cases h; rfl)

/-- C6: with a live recorded pid, any single-endpoint difference between
the persisted snapshot and the desired configuration (one endpoint's field
changed, one endpoint added, or one removed), and likewise an absent or
unparsable state file, yields Restart with the recorded pid. -/
theorem checkDaemon_restart_on_change (snapshot desired : List ProxyEntry)
    (pid : Int) (running : Int → Bool) (stateFile : Option DaemonState)
    (hlive : running pid = true)
    (hdiff :
      (∃ st, stateFile = some st ∧ st.Proxies = snapshot ∧
        (singleFieldChange snapshot desired ∨ endpointAdded snapshot desired ∨
          endpointRemoved snapshot desired)) ∨
      stateFile = none) :
    checkDaemon desired (some pid) running stateFile =
      (DaemonAction.restart, pid) := by
  rcases hdiff with ⟨st, hst, hsnap, hchange⟩ | hnone
  · have hne : snapshot ≠ desired := by
      rcases hchange with h | h | h
      · exact ne_of_singleFieldChange h
      · exact ne_of_endpointAdded h
      · exact ne_of_endpointRemoved h
    have hfalse : proxiesEqual st.Proxies desired = false := by
      rw [proxiesEqual_eq_false_iff, hsnap]
      exact hne
    simp [checkDaemon, hlive, hst, hfalse]
  · simp [checkDaemon, hlive, hnone]

theorem checkDaemon_restart_on_change_witness :
    checkDaemon [proxyA, proxyB] (some 7) (fun _ => true)
        (some { PID := 7, StartedAt := 0, Proxies := [proxyA] }) =
      (DaemonAction.restart, 7) :=
  checkDaemon_restart_on_change [proxyA] [proxyA, proxyB] 7 (fun _ => true)
    (some { PID := 7, StartedAt := 0, Proxies := [proxyA] }) rfl
    (Or.inl ⟨_, rfl, rfl, Or.inr (Or.inl ⟨[proxyA], proxyB, [], rfl, rfl⟩)⟩)

/-- Outcome of the bind loop in `runDaemon`: either every listener bound
(`ok`, in configuration order), or some bind failed (`bindFail`); `closed`
lists the already-bound listeners in the order the rollback closes them
(the Go code ranges over the `listeners` slice front to back). -/
inductive StartOutcome where
  | ok (listeners : List ProxyEntry)
  | bindFail (closed : List ProxyEntry) (failed : ProxyEntry)
deriving DecidableEq, Repr

/-- Embeds the listener loop of `cmd/start.go runDaemon` (lines 157-172):
for each entry, attempt to bind (`bindOk`); on failure close the
already-started listeners front to back and report the failing entry;
on success append to the started list and continue. -/
def startListeners (bindOk : ProxyEntry → Bool) (started : List ProxyEntry) :
    List ProxyEntry → StartOutcome
  | [] => .ok started
  | p :: rest =>
    if bindOk p then startListeners bindOk (started ++ [p]) rest
    else .bindFail started p

/-- How the daemon context leaves its run: an early error return
(pid write, config load, dialer creation, bind failure) or reaching the
signal wait with all listeners bound. -/
inductive DaemonExit where
  | errWritePID
  | errConfig
  | errDialer
  | errBind (closed : List ProxyEntry) (failed : ProxyEntry)
  | running (listeners : List ProxyEntry) (stateWritten : Bool)
deriving DecidableEq, Repr

/-- The two persisted files of the state directory: `daemon.pid`
(identity) and `state.json` (daemon state). -/
structure Disk where
  pidFile : Bool
  stateFile : Bool
deriving DecidableEq, Repr

/-- Embeds `cmd/start.go runDaemon` (lines 130-197) as a function of its
fallible steps: write the pid file (on failure return at once), load the
config (`none` = load failure, returns with no cleanup), create the
dialer (failure returns with no cleanup), run the bind loop (failure
closes the started listeners and calls `RemoveStateFiles`, which deletes
both files), then write the state file (a failure is only logged) and
block awaiting a signal.  Returns the resulting disk contents and the
exit. -/
def runDaemon (disk : Disk) (writePIDok : Bool)
    (cfg : Option (List ProxyEntry)) (dialerOk : Bool)
    (bindOk : ProxyEntry → Bool) (stateWriteOk : Bool) : Disk × DaemonExit :=
  if writePIDok = false then (disk, .errWritePID)
  else
    let disk1 : Disk := { disk with pidFile := true }
    match cfg with
    | none => (disk1, .errConfig)
    | some proxies =>
      if dialerOk = false then (disk1, .errDialer)
      else
        match startListeners bindOk [] proxies with
        | .bindFail closed p => (⟨false, false⟩, .errBind closed p)
        | .ok listeners =>
          let disk2 : Disk :=
            if stateWriteOk then { disk1 with stateFile := true } else disk1
          (disk2, .running listeners stateWriteOk)

/-- C2: the claim says every daemon error exit leaves the identity and
state files as a pair.  On the failing input — config load fails right
after the pid file was written — the daemon exits with the config error
leaving `daemon.pid` present and `state.json` absent. -/
theorem runDaemon_configError_leaves_pid_without_state :
    runDaemon ⟨false, false⟩ true none true (fun _ => true) true =
      (⟨true, false⟩, DaemonExit.errConfig) := by
  decide

/-- C2 amended: pair consistency holds on the bind-failure exit — there
the rollback removes both files — while the config-load and
dialer-creation error exits keep the freshly written pid file and leave
the state file untouched. -/
theorem runDaemon_bindError_removes_both_files (disk : Disk)
    (writePIDok : Bool) (cfg : Option (List ProxyEntry)) (dialerOk : Bool)
    (bindOk : ProxyEntry → Bool) (stateWriteOk : Bool)
    (closed : List ProxyEntry) (p : ProxyEntry)
    (h : (runDaemon disk writePIDok cfg dialerOk bindOk stateWriteOk).2 =
      DaemonExit.errBind closed p) :
    (runDaemon disk writePIDok cfg dialerOk bindOk stateWriteOk).1 =
      ⟨false, false⟩ := by
  unfold runDaemon at h ⊢
  cases writePIDok with
  | false => simp at h
  | true =>
    simp only [Bool.true_eq_false, if_false] at h ⊢
    cases cfg with
    | none => simp at h
    | some proxies =>
      cases dialerOk with
      | false => simp at h
      | true =>
        simp only [Bool.true_eq_false, if_false] at h ⊢
        cases hs : startListeners bindOk [] proxies with
        | ok listeners => rw [hs] at h; simp at h
        | bindFail c q => rfl

theorem runDaemon_bindError_removes_both_files_witness :
    (runDaemon ⟨false, false⟩ true (some [proxyA]) true (fun _ => false)
        true).2 = DaemonExit.errBind [] proxyA ∧
    (runDaemon ⟨false, false⟩ true (some [proxyA]) true (fun _ => false)
        true).1 = ⟨false, false⟩ :=
  ⟨by decide,
    runDaemon_bindError_removes_both_files ⟨false, false⟩ true
      (some [proxyA]) true (fun _ => false) true [] proxyA (by decide)⟩

theorem startListeners_fail_at (bindOk : ProxyEntry → Bool) (p : ProxyEntry)
    (l2 : List ProxyEntry) (hp : bindOk p = false) :
    ∀ (l1 acc : List ProxyEntry), (∀ q ∈ l1, bindOk q = true) →
      startListeners bindOk acc (l1 ++ p :: l2) = .bindFail (acc ++ l1) p := by
  intro l1
  induction l1 with
  | nil =>
    intro acc _
    show (if bindOk p = true then
        startListeners bindOk (acc ++ [p]) l2
      else StartOutcome.bindFail acc p) = StartOutcome.bindFail (acc ++ []) p
    rw [if_neg (by simp [hp]), List.append_nil]
  | cons q l1 ih =>
    intro acc h1
    have hq : bindOk q = true := h1 q (List.mem_cons_self q l1)
    rw [List.cons_append]
    show (if bindOk q = true then
        startListeners bindOk (acc ++ [q]) (l1 ++ p :: l2)
      else StartOutcome.bindFail acc q) = StartOutcome.bindFail (acc ++ q :: l1) p
    rw [if_pos hq, ih (acc ++ [q]) (fun r hr => h1 r (List.mem_cons_of_mem q hr)),
      List.append_assoc]
    rfl

/-- C4: the claim says the rollback closes the already-started forwarders
in reverse order.  The code closes them in configuration (forward) order:
with three endpoints whose third bind fails, the close order is the bound
prefix `[proxyA, proxyB]`, not its reverse `[proxyB, proxyA]`. -/
theorem runDaemon_rollback_closes_forward :
    (runDaemon ⟨false, false⟩ true (some [proxyA, proxyB, proxyC]) true
        (fun q => decide (q ≠ proxyC)) true).2 =
      DaemonExit.errBind [proxyA, proxyB] proxyC ∧
    [proxyA, proxyB] ≠ List.reverse [proxyA, proxyB] := by
  refine ⟨by decide, by decide⟩

/-- C4 amended: when the binds of the prefix `l1` succeed and the next
endpoint `p` fails to bind, the daemon closes exactly the bound prefix in
configuration (forward) order, removes both the identity and state files,
and exits with the bind error — so no DaemonState file exists
afterwards. -/
theorem runDaemon_all_or_nothing (disk : Disk) (stateWriteOk : Bool)
    (bindOk : ProxyEntry → Bool) (l1 l2 : List ProxyEntry) (p : ProxyEntry)
    (h1 : ∀ q ∈ l1, bindOk q = true) (hp : bindOk p = false) :
    runDaemon disk true (some (l1 ++ p :: l2)) true bindOk stateWriteOk =
      (⟨false, false⟩, DaemonExit.errBind l1 p) := by
  unfold runDaemon
  simp only [Bool.true_eq_false, if_false]
  rw [startListeners_fail_at bindOk p l2 hp l1 [] h1]
  rfl

theorem runDaemon_all_or_nothing_witness :
    (∀ q ∈ [proxyA, proxyB], (fun r => decide (r ≠ proxyC)) q = true) ∧
    (fun r => decide (r ≠ proxyC)) proxyC = false ∧
    runDaemon ⟨false, false⟩ true (some ([proxyA, proxyB] ++ proxyC :: []))
        true (fun r => decide (r ≠ proxyC)) true =
      (⟨false, false⟩, DaemonExit.errBind [proxyA, proxyB] proxyC) :=
  ⟨by decide, by decide,
    runDaemon_all_or_nothing ⟨false, false⟩ true
      (fun r => decide (r ≠ proxyC)) [proxyA, proxyB] [] proxyC
      (by decide) (by decide)⟩

/-- Message printed by `runStop`: "No daemon is running." or
"Daemon stopped." -/
inductive StopMsg where
  | noDaemon
  | stopped
deriving DecidableEq, Repr

/-- The state directory as `runStop` sees it: whether `daemon.pid` exists,
its parse result when it does (`none` models unparsable content), and
whether `state.json` exists. -/
structure StopDisk where
  pidFile : Bool
  pidContent : Option Int
  stateFile : Bool
deriving DecidableEq, Repr

/-- Embeds `proxy.ReadPID`: fails (`none`) when the pid file is absent or
its content does not parse as an integer. -/
def readPID (d : StopDisk) : Option Int :=
  if d.pidFile then d.pidContent else none

/-- Embeds `proxy.RemoveStateFiles`: removes both `daemon.pid` and
`state.json` (missing files are not errors). -/
def removeStateFiles (_ : StopDisk) : StopDisk :=
  { pidFile := false, pidContent := none, stateFile := false }

/-- Embeds `cmd/stop.go runStop` as a function of the liveness oracle and
the signal outcomes.  `findProcOk` models `os.FindProcess` (never fails on
Unix), `signalOk` the SIGTERM delivery, `diesInTime` whether the daemon
exits within the 5-second poll.  Returns the resulting state directory,
the printed message, and the returned error — the Go function returns
`nil` at every return site. -/
def runStop (d : StopDisk) (running : Int → Bool) (findProcOk : Bool)
    (signalOk : Bool) (diesInTime : Bool) :
    StopDisk × StopMsg × Option String :=
  match readPID d with
  | none => (d, .noDaemon, none)
  | some pid =>
    if running pid = false then (removeStateFiles d, .noDaemon, none)
    else if findProcOk = false then (d, .noDaemon, none)
    else if signalOk = false then (removeStateFiles d, .noDaemon, none)
    else if diesInTime then (removeStateFiles d, .stopped, none)
    else (removeStateFiles d, .stopped, none)

/-- C3: the claim says that with no live recorded pid, the stop protocol
leaves neither the identity file nor the state file.  On the failing
input — pid file present but unparsable, state file present — `runStop`
reports success yet removes nothing: both files persist. -/
theorem runStop_leaves_files_on_unreadable_pid :
    runStop ⟨true, none, true⟩ (fun _ => false) true true true =
      (⟨true, none, true⟩, StopMsg.noDaemon, none) := by
  decide

/-- C3 amended: with no live recorded pid, `runStop` — invoked once or
twice in a row — always returns success (`nil` error) and reports
"no daemon running"; it removes both files when the pid file was present
and parsable, but when the pid file is absent or unparsable it removes
nothing, so leftover files persist. -/
theorem runStop_idempotent_when_no_live_pid (d : StopDisk)
    (running : Int → Bool) (fp sig dies : Bool)
    (hdead : ∀ pid, readPID d = some pid → running pid = false) :
    (runStop d running fp sig dies).2.2 = none ∧
    (runStop d running fp sig dies).2.1 = StopMsg.noDaemon ∧
    (∀ pid, readPID d = some pid →
      (runStop d running fp sig dies).1 = removeStateFiles d) ∧
    (readPID d = none → (runStop d running fp sig dies).1 = d) ∧
    runStop (runStop d running fp sig dies).1 running fp sig dies =
      ((runStop d running fp sig dies).1, StopMsg.noDaemon, none) := by
  cases hr : readPID d with
  | none =>
    have hstep : runStop d running fp sig dies = (d, .noDaemon, none) := by
      unfold runStop
      split
      · rfl
      · rename_i pid hpid
        rw [hr] at hpid
        cases hpid
    refine ⟨by rw [hstep], by rw [hstep], ?_, ?_, ?_⟩
    · intro pid hpid
      simp at hpid
    · intro _
      rw [hstep]
    · rw [hstep]
      exact hstep
  | some pid =>
    have hnot : running pid = false := hdead pid hr
    have hstep : runStop d running fp sig dies =
        (removeStateFiles d, .noDaemon, none) := by
      unfold runStop
      split
      · rename_i hnone
        rw [hr] at hnone
        cases hnone
      · rename_i pid2 hpid2
        rw [hr] at hpid2
        cases hpid2
        rw [hnot]
        rfl
    have hremoved : readPID (removeStateFiles d) = none := rfl
    have hstep2 : runStop (removeStateFiles d) running fp sig dies =
        (removeStateFiles d, .noDaemon, none) := by
      unfold runStop
      split
      · rfl
      · rename_i pid2 hpid2
        rw [hremoved] at hpid2
        cases hpid2
    refine ⟨by rw [hstep], by rw [hstep], ?_, ?_, ?_⟩
    · intro pid2 _
      rw [hstep]
    · intro hnone
      simp at hnone
    · rw [hstep]
      exact hstep2

theorem runStop_idempotent_when_no_live_pid_witness :
    (∀ pid, readPID ⟨true, some 9, true⟩ = some pid →
      (fun _ => false) pid = false) ∧
    (runStop ⟨true, some 9, true⟩ (fun _ => false) true true true).2.2 =
      none ∧
    (runStop ⟨true, some 9, true⟩ (fun _ => false) true true true).1 =
      removeStateFiles ⟨true, some 9, true⟩ :=
  ⟨fun _ _ => rfl,
    (runStop_idempotent_when_no_live_pid ⟨true, some 9, true⟩
      (fun _ => false) true true true (fun _ _ => rfl)).1,
    (runStop_idempotent_when_no_live_pid ⟨true, some 9, true⟩
      (fun _ => false) true true true (fun _ _ => rfl)).2.2.1 9 rfl⟩

/-- Buffer size used by Go's `io.Copy` when no buffer is supplied. -/
def copyBufSize : Nat := 32 * 1024

/-- Embeds `io.Copy src dst` on one stream direction: repeatedly read up
to `bufSize` bytes from the source and write exactly the bytes read to
the destination, until end of stream.  Returns the byte sequence
delivered to the destination, in write order. -/
def ioCopy (bufSize : Nat) (src : List Nat) : List Nat :=
  if h : bufSize = 0 ∨ src = [] then []
  else src.take bufSize ++ ioCopy bufSize (src.drop bufSize)
termination_by src.length
decreasing_by
  rcases not_or.mp h with ⟨hb, hs⟩
  rw [List.length_drop]
  exact Nat.sub_lt (List.length_pos.mpr hs) (Nat.pos_of_ne_zero hb)

/-- A positive-buffer `ioCopy` delivers exactly the source bytes, in
order, with no loss, reordering or duplication. -/
theorem ioCopy_eq_src (bufSize : Nat) (hb : bufSize ≠ 0) :
    ∀ src : List Nat, ioCopy bufSize src = src := by
  have key : ∀ (n : Nat) (src : List Nat), src.length ≤ n →
      ioCopy bufSize src = src := by
    intro n
    induction n with
    | zero =>
      intro src hlen
      have hnil : src = [] := List.eq_nil_of_length_eq_zero (Nat.le_zero.mp hlen)
      subst hnil
      rw [ioCopy]
      simp
    | succ n ih =>
      intro src hlen
      cases src with
      | nil => rw [ioCopy]; simp
      | cons b rest =>
        rw [ioCopy, dif_neg (by simp [hb])]
        have hdrop : ((b :: rest).drop bufSize).length ≤ n := by
          rw [List.length_drop, List.length_cons]
          simp only [List.length_cons] at hlen
          omega
        rw [ih _ hdrop, List.take_append_drop]
  exact fun src => key src.length src le_rfl

/-- Result of one connection task (`Listener.handleConn`): the bytes
delivered to the remote side and to the client side, whether each socket
ends up closed, and how many dial attempts were made. -/
structure ConnOutcome where
  toRemote : List Nat
  toClient : List Nat
  clientClosed : Bool
  remoteClosed : Bool
  dialCount : Nat
deriving DecidableEq, Repr

/-- Embeds `internal/proxy/proxy.go Listener.handleConn`: dial the remote
once; on failure close the client socket and return with nothing
forwarded; on success run the two `io.Copy` pumps (client to remote and
remote to client) and close both sockets.  `clientBytes`/`remoteBytes`
are the byte streams each peer sends until its direction ends. -/
def handleConn (dialOk : Bool) (clientBytes remoteBytes : List Nat) :
    ConnOutcome :=
  if dialOk = false then
    { toRemote := [], toClient := [], clientClosed := true,
      remoteClosed := false, dialCount := 1 }
  else
    { toRemote := ioCopy copyBufSize clientBytes,
      toClient := ioCopy copyBufSize remoteBytes,
      clientClosed := true, remoteClosed := true, dialCount := 1 }

/-- One accepted connection, as the accept loop sees it: whether its
remote dial succeeds and what each peer sends. -/
structure ConnEvent where
  dialOk : Bool
  clientBytes : List Nat
  remoteBytes : List Nat
deriving DecidableEq, Repr

/-- Embeds `Listener.acceptLoop` over the sequence of connections it
accepts: each accepted connection is handed to `handleConn` and the loop
immediately resumes accepting — the outcome of one connection never stops
the processing of the later ones. -/
def acceptLoop (conns : List ConnEvent) : List ConnOutcome :=
  conns.map fun c => handleConn c.dialOk c.clientBytes c.remoteBytes

/-- C7: through a forwarder connection whose dial succeeded, each
direction delivers exactly the bytes its sender wrote, in order — the
remote receives precisely the client's stream and the client precisely
the remote's. -/
theorem handleConn_byte_fidelity (clientBytes remoteBytes : List Nat) :
    (handleConn true clientBytes remoteBytes).toRemote = clientBytes ∧
    (handleConn true clientBytes remoteBytes).toClient = remoteBytes := by
  unfold handleConn
  simp only [Bool.true_eq_false, if_false]
  exact ⟨ioCopy_eq_src copyBufSize (by decide) clientBytes,
    ioCopy_eq_src copyBufSize (by decide) remoteBytes⟩

/-- C9: a connection whose remote dial fails is closed on the client side
with no bytes forwarded in either direction and exactly one dial attempt
(no retry), and the accept loop still processes every connection accepted
before and after it exactly as it would have. -/
theorem handleConn_dial_failure (pre post : List ConnEvent) (c : ConnEvent)
    (hfail : c.dialOk = false) :
    (handleConn c.dialOk c.clientBytes c.remoteBytes).clientClosed = true ∧
    (handleConn c.dialOk c.clientBytes c.remoteBytes).toRemote = [] ∧
    (handleConn c.dialOk c.clientBytes c.remoteBytes).toClient = [] ∧
    (handleConn c.dialOk c.clientBytes c.remoteBytes).dialCount = 1 ∧
    acceptLoop (pre ++ c :: post) =
      acceptLoop pre ++
        handleConn c.dialOk c.clientBytes c.remoteBytes :: acceptLoop post := by
  refine ⟨?_, ?_, ?_, ?_, ?_⟩ <;>
    simp [handleConn, hfail, acceptLoop]

theorem handleConn_dial_failure_witness :
    (⟨false, [1, 2, 3], [4, 5]⟩ : ConnEvent).dialOk = false ∧
    (handleConn false [1, 2, 3] [4, 5]).toRemote = [] ∧
    acceptLoop [⟨true, [7], [8]⟩, ⟨false, [1, 2, 3], [4, 5]⟩] =
      acceptLoop [⟨true, [7], [8]⟩] ++
        handleConn false [1, 2, 3] [4, 5] :: acceptLoop [] :=
  ⟨rfl,
    (handleConn_dial_failure [⟨true, [7], [8]⟩] []
      ⟨false, [1, 2, 3], [4, 5]⟩ rfl).2.1,
    (handleConn_dial_failure [⟨true, [7], [8]⟩] []
      ⟨false, [1, 2, 3], [4, 5]⟩ rfl).2.2.2.2⟩

/-- Embeds the status computation of `cmd/list.go runList`: read the
state file; the daemon counts as running iff the read parses and the pid
recorded in it is live; every configured endpoint is then printed with
the one shared status string. -/
def runList (cfg : List ProxyEntry) (stateRead : Option DaemonState)
    (running : Int → Bool) : List (ProxyEntry × String) :=
  let daemonRunning : Bool :=
    match stateRead with
    | some st => running st.PID
    | none => false
  cfg.map fun p => (p, if daemonRunning then "running" else "stopped")

/-- C10: the list command gives every configured endpoint the same status
string — "running" exactly when the state file parsed and its recorded
pid is live, "stopped" otherwise — independent of the endpoint itself and
of the state file's snapshot contents. -/
theorem runList_uniform_status (cfg : List ProxyEntry)
    (stateRead : Option DaemonState) (running : Int → Bool)
    (p : ProxyEntry) (s : String)
    (hmem : (p, s) ∈ runList cfg stateRead running) :
    s = if (match stateRead with
          | some st => running st.PID
          | none => false) then "running" else "stopped" := by
  unfold runList at hmem
  obtain ⟨q, _, heq⟩ := List.mem_map.mp hmem
  exact (congrArg Prod.snd heq).symm

theorem runList_uniform_status_witness :
    (proxyA, "stopped") ∈ runList [proxyA, proxyB] none (fun _ => true) ∧
    "stopped" = if (match (none : Option DaemonState) with
        | some st => (fun _ : Int => true) st.PID
        | none => false) then "running" else "stopped" :=
  ⟨by simp [runList],
    runList_uniform_status [proxyA, proxyB] none (fun _ => true) proxyA
      "stopped" (by simp [runList])⟩

end CloudSqlProxyRunner
